import Mathlib

/-!
Shallow embedding of `src/rust-core/src/lib.rs` (the FEVERDREAM encryption
session manager).  Rust `Result<T, String>` becomes `Except String T`;
mutation of the `EncryptionManager` becomes explicit state passing; the
process-wide `Mutex<Option<EncryptionManager>>` becomes an
`Option EncryptionManager` value threaded through the exported functions.
Randomness (`Account::new()`, `GroupSession::new()`) is modelled by passing
the freshly generated object as an explicit argument.  The external
cryptographic engine (the vodozemac crate) is modelled at its interface only,
as the spec declares it out of scope.
-/

namespace Feverdream

/-- Lowercase hex digit for a value below 16, as produced by the `hex` crate. -/
def hexDigit (n : Nat) : Char :=
  if n < 10 then Char.ofNat (48 + n) else Char.ofNat (87 + n)

/-- The two hex characters encoding one byte (`hex::encode` works bytewise). -/
def hexEncodeByte (b : Nat) : List Char :=
  [hexDigit (b % 256 / 16), hexDigit (b % 16)]

/-- Model of `hex::encode`: each byte becomes two lowercase hex characters. -/
def hexEncode (bs : List Nat) : String :=
  ⟨bs.flatMap hexEncodeByte⟩

/-- The sixteen characters that `hex::encode` can emit. -/
def hexAlphabet : List Char :=
  (List.range 16).map hexDigit

/-- Identity key pair held by a vodozemac `Account`: the ed25519 signing key and
the curve25519 key-agreement key, as byte sequences (32 bytes each in the real
engine; the length is carried as a hypothesis where a claim needs it). -/
structure IdentityKeys where
  ed25519 : List Nat
  curve25519 : List Nat
  deriving DecidableEq, Repr

/-- Interface model of `vodozemac::olm::Account`: the only use the source makes
of it is `identity_keys()`. A fresh account is passed in where the source calls
`Account::new()`. -/
structure Account where
  identity_keys : IdentityKeys
  deriving DecidableEq, Repr

/-- Interface model of `vodozemac::megolm::GroupSession`: an opaque ratchet key,
the session-id bytes advertised by the engine (nonempty in the real engine),
and the monotonic message index advanced by every encryption. -/
structure GroupSession where
  ratchet_key : List Nat
  sid : List Nat
  message_index : Nat
  deriving DecidableEq, Repr

/-- Interface model of the megolm AEAD (AES-256-CBC with PKCS#7 padding):
the ciphertext is opaque, and its length is the plaintext length rounded up
to the next multiple of the 16-byte block size, hence never zero. -/
def engineCipher (key : List Nat) (index : Nat) (pt : List Nat) : List Nat :=
  List.replicate (16 * (pt.length / 16 + 1)) ((key.sum + index) % 256)

/-- UTF-8-agnostic byte view of a plaintext string (code points as numbers). -/
def strBytes (s : String) : List Nat :=
  s.data.map Char.toNat

/-- Interface model of `MegolmMessage`: the source only reads `.ciphertext()`. -/
structure MegolmMessage where
  ciphertext : List Nat
  deriving DecidableEq, Repr

/-- Model of `GroupSession::encrypt`: produce the message and advance the
ratchet (the message index increases by one); the session id is unchanged. -/
def GroupSession.encrypt (s : GroupSession) (content : String) :
    MegolmMessage × GroupSession :=
  (⟨engineCipher s.ratchet_key s.message_index (strBytes content)⟩,
   { s with message_index := s.message_index + 1 })

/-- Model of `GroupSession::session_id` (stable over the session's lifetime). -/
def GroupSession.session_id (s : GroupSession) : List Nat :=
  s.sid

/-- `DeviceKeys` struct of the source, field for field. -/
structure DeviceKeys where
  user_id : String
  device_id : String
  ed25519_key : String
  curve25519_key : String
  deriving DecidableEq, Repr

/-- `EncryptedMessage` wire envelope of the source, field for field. -/
structure EncryptedMessage where
  algorithm : String
  ciphertext : String
  sender_key : String
  session_id : String
  deriving DecidableEq, Repr

/-- `DecryptionResult` struct of the source, field for field. -/
structure DecryptionResult where
  plaintext : String
  sender_key : String
  deriving DecidableEq, Repr

/-- `EncryptionManager` struct: the olm account, the per-room outbound session
table (the `HashMap<String, GroupSession>` modelled extensionally as a partial
map), and the cached device keys. -/
structure EncryptionManager where
  olm_account : Account
  outbound_sessions : String → Option GroupSession
  device_keys : DeviceKeys

/-- `EncryptionManager::new`: derive and cache the hex-encoded identity keys;
the outbound session table starts empty.  The fresh `Account` the source draws
from `Account::new()` is an explicit argument. -/
def EncryptionManager.new (user_id device_id : String) (olm_account : Account) :
    EncryptionManager :=
  let identity_keys := olm_account.identity_keys
  { olm_account := olm_account
    outbound_sessions := fun _ => none
    device_keys :=
      { user_id := user_id
        device_id := device_id
        ed25519_key := hexEncode identity_keys.ed25519
        curve25519_key := hexEncode identity_keys.curve25519 } }

/-- `EncryptionManager::get_device_keys`. -/
def EncryptionManager.get_device_keys (m : EncryptionManager) : DeviceKeys :=
  m.device_keys

/-- `EncryptionManager::create_outbound_session`: unconditionally insert a
fresh group session under the room id and return `Ok(())`.  The fresh session
the source draws from `GroupSession::new()` is an explicit argument. -/
def EncryptionManager.create_outbound_session (m : EncryptionManager)
    (room_id : String) (group_session : GroupSession) :
    Except String Unit × EncryptionManager :=
  (Except.ok (),
   { m with outbound_sessions :=
      fun k => if k = room_id then some group_session else m.outbound_sessions k })

/-- The error string `encrypt_message` formats when the room has no session. -/
def noSessionErr (room_id : String) : String :=
  "No outbound session for room " ++ room_id

/-- `EncryptionManager::encrypt_message`: look up the room's session, encrypt
(advancing the ratchet in place), and assemble the wire envelope. -/
def EncryptionManager.encrypt_message (m : EncryptionManager)
    (content room_id : String) :
    Except String EncryptedMessage × EncryptionManager :=
  match m.outbound_sessions room_id with
  | none => (Except.error (noSessionErr room_id), m)
  | some session =>
      let mp := session.encrypt content
      let identity_keys := m.olm_account.identity_keys
      (Except.ok
        { algorithm := "m.megolm.v1.aes-sha2"
          ciphertext := hexEncode mp.1.ciphertext
          sender_key := hexEncode identity_keys.curve25519
          session_id := hexEncode mp.2.session_id },
       { m with outbound_sessions :=
          fun k => if k = room_id then some mp.2 else m.outbound_sessions k })

/-- The stub error string the source's decryption method always returns. -/
def decryptStubErr : String :=
  "Decryption not yet implemented - requires inbound session management"

/-- `EncryptionManager::decrypt_message`: the source body ignores both
arguments and returns the not-yet-implemented error, touching no state. -/
def EncryptionManager.decrypt_message (m : EncryptionManager)
    (encrypted : EncryptedMessage) (room_id : String) :
    Except String DecryptionResult × EncryptionManager :=
  (Except.error decryptStubErr, m)

/-- The error string every exported function returns when the process-wide
state is `None`. -/
def notInitializedErr : String :=
  "Encryption not initialized"

/-- Exported `init_encryption`: build a new manager and overwrite the
process-wide state, always returning `Ok(())`. -/
def init_encryption (user_id device_id : String) (fresh : Account)
    (st : Option EncryptionManager) :
    Except String Unit × Option EncryptionManager :=
  (Except.ok (), some (EncryptionManager.new user_id device_id fresh))

/-- Exported `get_device_keys` (read-only; state result omitted). -/
def get_device_keys (st : Option EncryptionManager) : Except String DeviceKeys :=
  match st with
  | some manager => Except.ok manager.get_device_keys
  | none => Except.error notInitializedErr

/-- Exported `create_outbound_session`. -/
def create_outbound_session (room_id : String) (fresh : GroupSession)
    (st : Option EncryptionManager) :
    Except String Unit × Option EncryptionManager :=
  match st with
  | some manager =>
      let r := manager.create_outbound_session room_id fresh
      (r.1, some r.2)
  | none => (Except.error notInitializedErr, none)

/-- Exported `encrypt_message`. -/
def encrypt_message (content room_id : String) (st : Option EncryptionManager) :
    Except String EncryptedMessage × Option EncryptionManager :=
  match st with
  | some manager =>
      let r := manager.encrypt_message content room_id
      (r.1, some r.2)
  | none => (Except.error notInitializedErr, none)

/-- The error string the exported `decrypt_message` formats around the
serde-json failure message when the input does not wire-decode. -/
def malformedErr (e : String) : String :=
  "Invalid encrypted message format: " ++ e

/-- Exported `decrypt_message`: first wire-decode the input (serde_json is a
boundary concern, modelled as an explicit decoder argument returning either
the envelope or serde's error message); only on success is the state lock
taken and the manager consulted. -/
def decrypt_message (parse : String → Except String EncryptedMessage)
    (encrypted room_id : String) (st : Option EncryptionManager) :
    Except String DecryptionResult × Option EncryptionManager :=
  match parse encrypted with
  | Except.error e => (Except.error (malformedErr e), st)
  | Except.ok encrypted_msg =>
      match st with
      | some manager =>
          let r := manager.decrypt_message encrypted_msg room_id
          (r.1, some r.2)
      | none => (Except.error notInitializedErr, none)

/-- Repeated encryption: run `encrypt_message` on the manager `n` times,
keeping only the state (used to state claims about repeated calls). -/
def iterEncrypt (content room_id : String) : Nat → EncryptionManager → EncryptionManager
  | 0, m => m
  | n + 1, m => iterEncrypt content room_id n (m.encrypt_message content room_id).2

/-! Concrete instances used by the witness theorems. -/

/-- A concrete fresh account with 32-byte identity keys. -/
def wAcct : Account :=
  ⟨⟨List.replicate 32 1, List.replicate 32 2⟩⟩

/-- A concrete fresh group session with a nonempty session id. -/
def wSession : GroupSession :=
  ⟨[3], [4], 0⟩

/-- A second concrete fresh group session. -/
def wSession2 : GroupSession :=
  ⟨[5], [6], 0⟩

/-- A concrete initialized manager. -/
def wMgr : EncryptionManager :=
  EncryptionManager.new "alice" "DEV1" wAcct

/-- The concrete manager after creating an outbound session for "room1". -/
def wMgrRoom : EncryptionManager :=
  (wMgr.create_outbound_session "room1" wSession).2

/-- A concrete well-formed envelope for decode-success scenarios. -/
def wEnvelope : EncryptedMessage :=
  ⟨"m.megolm.v1.aes-sha2", "aa", "bb", "cc"⟩

/-! Helper lemmas about the hex encoding and the engine model. -/

/-- Hex encoding doubles the length: one byte becomes two characters. -/
theorem length_hexEncode (bs : List Nat) : (hexEncode bs).length = 2 * bs.length := by
  show (bs.flatMap hexEncodeByte).length = 2 * bs.length
  induction bs with
  | nil => rfl
  | cons b t ih =>
      simp only [List.flatMap_cons, List.length_append, ih, hexEncodeByte,
        List.length_cons, List.length_nil]
      omega

/-- Every character of a hex encoding is one of the sixteen hex characters. -/
theorem mem_hexEncode_alphabet (bs : List Nat) :
    ∀ ch ∈ (hexEncode bs).data, ch ∈ hexAlphabet := by
  show ∀ ch ∈ bs.flatMap hexEncodeByte, ch ∈ hexAlphabet
  intro ch hch
  rw [List.mem_flatMap] at hch
  obtain ⟨b, -, hb⟩ := hch
  have h16 : ∀ n, n < 16 → hexDigit n ∈ hexAlphabet := by decide
  have hhi : b % 256 / 16 < 16 :=
    Nat.div_lt_of_lt_mul (Nat.mod_lt _ (by norm_num))
  have hlo : b % 16 < 16 := Nat.mod_lt _ (by norm_num)
  simp only [hexEncodeByte, List.mem_cons, List.not_mem_nil, or_false] at hb
  rcases hb with hb | hb
  · exact hb ▸ h16 _ hhi
  · exact hb ▸ h16 _ hlo

/-- The hex encoding of a nonempty byte sequence is a nonempty string. -/
theorem hexEncode_ne_empty (bs : List Nat) (h : bs ≠ []) : hexEncode bs ≠ "" := by
  intro he
  have hl := length_hexEncode bs
  rw [he] at hl
  have : bs.length = 0 := by
    have : ("" : String).length = 0 := rfl
    omega
  exact h (List.length_eq_zero.mp this)

/-- The modelled engine ciphertext is never empty (at least one padded block). -/
theorem engineCipher_ne_nil (key : List Nat) (index : Nat) (pt : List Nat) :
    engineCipher key index pt ≠ [] := by
  simp [engineCipher]

/-- Encrypting with a present session succeeds and keeps a session in the
table for that room (the table entry is replaced by the advanced session). -/
theorem encrypt_message_of_some (m : EncryptionManager) (content c : String)
    (s : GroupSession) (hs : m.outbound_sessions c = some s) :
    ∃ em m', m.encrypt_message content c = (Except.ok em, m') ∧
      m'.outbound_sessions c = some (s.encrypt content).2 := by
  refine ⟨{ algorithm := "m.megolm.v1.aes-sha2"
            ciphertext := hexEncode (s.encrypt content).1.ciphertext
            sender_key := hexEncode m.olm_account.identity_keys.curve25519
            session_id := hexEncode (s.encrypt content).2.session_id },
          { m with outbound_sessions :=
              fun k => if k = c then some (s.encrypt content).2
                else m.outbound_sessions k },
          ?_, ?_⟩
  · unfold EncryptionManager.encrypt_message
    rw [hs]
  · simp

/-- Encrypting with no session for the room fails with the formatted
no-session error and leaves the manager unchanged. -/
theorem encrypt_message_of_none (m : EncryptionManager) (content c : String)
    (hs : m.outbound_sessions c = none) :
    m.encrypt_message content c = (Except.error (noSessionErr c), m) := by
  unfold EncryptionManager.encrypt_message
  rw [hs]

/-- Iterated encryption never removes the room's table entry. -/
theorem iterEncrypt_isSome (content c : String) (n : Nat) (m : EncryptionManager)
    (h : (m.outbound_sessions c).isSome) :
    ((iterEncrypt content c n m).outbound_sessions c).isSome := by
  induction n generalizing m with
  | zero => exact h
  | succ k ih =>
      rw [iterEncrypt]
      apply ih
      obtain ⟨s, hs⟩ := Option.isSome_iff_exists.mp h
      obtain ⟨em, m', hm, hm'⟩ := encrypt_message_of_some m content c s hs
      rw [hm, hm']
      rfl

/-! Claim theorems. -/

/-- C1: the claimed round-trip (admit the outbound session's key material, then
`decrypt_message` recovers the plaintext and sender key of every envelope) is
impossible on this code: `EncryptionManager::decrypt_message` ignores its
arguments, touches no session state, and unconditionally returns the
not-yet-implemented error, so no envelope ever decrypts successfully; no
`admit_inbound_session` operation exists at all. -/
theorem decrypt_message_always_stub_error (m : EncryptionManager)
    (encrypted : EncryptedMessage) (room_id : String) :
    m.decrypt_message encrypted room_id = (Except.error decryptStubErr, m) :=
  rfl

/-- C2: contrary to the claim, decrypting an envelope whose session id was
never admitted does not fail with an UnknownSession error: once the input
wire-decodes and a manager is present, the result is always the
not-yet-implemented stub error, which is a fixed string distinct from every
error kind the spec names (there is no UnknownSession string in the code). -/
theorem decrypt_unknown_session_stub
    (parse : String → Except String EncryptedMessage)
    (input room_id : String) (m : EncryptionManager) (em : EncryptedMessage)
    (hp : parse input = Except.ok em) :
    (decrypt_message parse input room_id (some m)).1 = Except.error decryptStubErr := by
  unfold decrypt_message
  rw [hp]
  rfl

/-- Witness for C2 at a concrete decoder, input and initialized manager. -/
theorem decrypt_unknown_session_stub_witness :
    ((fun _ : String => (Except.ok wEnvelope : Except String EncryptedMessage)) "x"
        = Except.ok wEnvelope) ∧
    (decrypt_message (fun _ => Except.ok wEnvelope) "x" "room1" (some wMgr)).1
      = Except.error decryptStubErr :=
  ⟨rfl, decrypt_unknown_session_stub (fun _ => Except.ok wEnvelope) "x" "room1"
    wMgr wEnvelope rfl⟩

/-- C3 counterexample: after a first `init_encryption` has installed a manager,
a second `init_encryption` still returns `Ok(())` — it does not fail with an
AlreadyInitialized error (no such failure exists in the code). -/
theorem init_twice_succeeds_cex :
    (init_encryption "alice" "DEV1" wAcct none).2
        = some (EncryptionManager.new "alice" "DEV1" wAcct) ∧
    (init_encryption "alice" "DEV1" wAcct
        (some (EncryptionManager.new "alice" "DEV1" wAcct))).1 = Except.ok () :=
  ⟨rfl, rfl⟩

/-- C3 amended: a second call to `init_encryption` on an already-initialized
state succeeds, returning `Ok(())` and silently replacing the process-wide
state with a freshly built manager; it never fails. -/
theorem init_on_initialized_replaces (user_id device_id : String)
    (fresh : Account) (m : EncryptionManager) :
    init_encryption user_id device_id fresh (some m)
      = (Except.ok (), some (EncryptionManager.new user_id device_id fresh)) :=
  rfl

/-- C4 counterexample: `create_outbound_session` with the empty conversation
identifier returns `Ok(())` on an initialized manager — it does not fail with
an InvalidConversationId error (the code performs no validation). -/
theorem create_outbound_session_empty_id_cex :
    (create_outbound_session "" wSession (some wMgr)).1 = Except.ok () :=
  rfl

/-- C4 amended: `create_outbound_session` with an empty conversation
identifier succeeds, inserting an outbound session keyed by the empty string;
no InvalidConversationId failure exists in the code. -/
theorem create_outbound_session_empty_id_ok (fresh : GroupSession)
    (m : EncryptionManager) :
    (create_outbound_session "" fresh (some m)).1 = Except.ok () ∧
    ∃ m', (create_outbound_session "" fresh (some m)).2 = some m' ∧
      m'.outbound_sessions "" = some fresh := by
  refine ⟨rfl, _, rfl, ?_⟩
  simp [EncryptionManager.create_outbound_session]

/-- C5: on an initialized manager, `encrypt_message` fails with the NoSession
error exactly when the outbound-session table has no entry for the
conversation; and after `create_outbound_session`, no matter how many further
encryptions have run, the next `encrypt_message` succeeds (so it never fails
with NoSession). -/
theorem encrypt_NoSession_iff (m : EncryptionManager) (content c : String) :
    ((encrypt_message content c (some m)).1 = Except.error (noSessionErr c)
        ↔ m.outbound_sessions c = none) ∧
    ∀ fresh n, ∃ em m',
      (iterEncrypt content c n (m.create_outbound_session c fresh).2).encrypt_message
          content c = (Except.ok em, m') := by
  constructor
  · show ((m.encrypt_message content c).1 = Except.error (noSessionErr c)
        ↔ m.outbound_sessions c = none)
    cases hs : m.outbound_sessions c with
    | none =>
        rw [encrypt_message_of_none m content c hs]
        simp
    | some s =>
        obtain ⟨em, m', hm, -⟩ := encrypt_message_of_some m content c s hs
        rw [hm]
        simp
  · intro fresh n
    have hsome : (((m.create_outbound_session c fresh).2).outbound_sessions c).isSome := by
      simp [EncryptionManager.create_outbound_session]
    have hiter := iterEncrypt_isSome content c n _ hsome
    obtain ⟨s, hs⟩ := Option.isSome_iff_exists.mp hiter
    obtain ⟨em, m', hm, -⟩ := encrypt_message_of_some _ content c s hs
    exact ⟨em, m', hm⟩

/-- C6 counterexample: with the process-wide state absent, `decrypt_message`
on an input that fails to wire-decode does not fail with the NotInitialized
error — it fails with the malformed-envelope error instead, so not every
exported operation fails with NotInitialized on an absent instance. -/
theorem absent_state_decrypt_not_NotInitialized_cex :
    (decrypt_message (fun _ => Except.error "expected value") "garbage" "room1" none).1
      = Except.error (malformedErr "expected value") ∧
    malformedErr "expected value" ≠ notInitializedErr :=
  ⟨rfl, by decide⟩

/-- C6 amended: when the process-wide state is absent, `get_device_keys`,
`create_outbound_session` and `encrypt_message` fail with the NotInitialized
error, and `decrypt_message` fails with NotInitialized whenever its input
wire-decodes to an `EncryptedMessage` (an input that fails to decode fails
with the MalformedEnvelope error instead, before the state is consulted). -/
theorem absent_state_ops_fail_NotInitialized
    (room_id content input : String) (fresh : GroupSession)
    (parse : String → Except String EncryptedMessage) (em : EncryptedMessage)
    (hp : parse input = Except.ok em) :
    get_device_keys none = Except.error notInitializedErr ∧
    (create_outbound_session room_id fresh none).1 = Except.error notInitializedErr ∧
    (encrypt_message content room_id none).1 = Except.error notInitializedErr ∧
    (decrypt_message parse input room_id none).1 = Except.error notInitializedErr := by
  refine ⟨rfl, rfl, rfl, ?_⟩
  unfold decrypt_message
  rw [hp]

/-- Witness for C6 at a concrete decoder and concrete arguments. -/
theorem absent_state_ops_fail_NotInitialized_witness :
    ((fun _ : String => (Except.ok wEnvelope : Except String EncryptedMessage)) "x"
        = Except.ok wEnvelope) ∧
    (get_device_keys none = Except.error notInitializedErr ∧
     (create_outbound_session "room1" wSession none).1 = Except.error notInitializedErr ∧
     (encrypt_message "hello" "room1" none).1 = Except.error notInitializedErr ∧
     (decrypt_message (fun _ => Except.ok wEnvelope) "x" "room1" none).1
        = Except.error notInitializedErr) :=
  ⟨rfl, absent_state_ops_fail_NotInitialized "room1" "hello" "x" wSession
    (fun _ => Except.ok wEnvelope) wEnvelope rfl⟩

/-- C7: on an initialized manager, creating an outbound session twice in a
row for the same non-empty conversation returns `Ok(())` both times, and the
resulting manager has a session usable by `encrypt_message` (which then
succeeds). -/
theorem create_outbound_session_twice_usable (m : EncryptionManager)
    (c content : String) (hc : c ≠ "") (gsA gsB : GroupSession) :
    (create_outbound_session c gsA (some m)).1 = Except.ok () ∧
    ∃ m1, (create_outbound_session c gsA (some m)).2 = some m1 ∧
      (create_outbound_session c gsB (some m1)).1 = Except.ok () ∧
      ∃ m2, (create_outbound_session c gsB (some m1)).2 = some m2 ∧
        ∃ em m3, m2.encrypt_message content c = (Except.ok em, m3) := by
  refine ⟨rfl, _, rfl, rfl, _, rfl, ?_⟩
  have hs : (((m.create_outbound_session c gsA).2).create_outbound_session c gsB).2.outbound_sessions c
      = some gsB := by
    simp [EncryptionManager.create_outbound_session]
  obtain ⟨em, m', hm, -⟩ := encrypt_message_of_some _ content c gsB hs
  exact ⟨em, m', hm⟩

/-- Witness for C7 at the concrete manager and the conversation "room1". -/
theorem create_outbound_session_twice_usable_witness :
    ("room1" : String) ≠ "" ∧
    ((create_outbound_session "room1" wSession (some wMgr)).1 = Except.ok () ∧
     ∃ m1, (create_outbound_session "room1" wSession (some wMgr)).2 = some m1 ∧
       (create_outbound_session "room1" wSession2 (some m1)).1 = Except.ok () ∧
       ∃ m2, (create_outbound_session "room1" wSession2 (some m1)).2 = some m2 ∧
         ∃ em m3, m2.encrypt_message "hello" "room1" = (Except.ok em, m3)) :=
  ⟨by decide, create_outbound_session_twice_usable wMgr "room1" "hello"
    (by decide) wSession wSession2⟩

/-- C8: a successful `encrypt_message` produces an envelope whose algorithm is
the fixed string "m.megolm.v1.aes-sha2", whose ciphertext is nonempty, whose
sender_key is exactly the hex encoding of the device's curve25519 key-agreement
public key — 64 hex characters when that key has the engine's 32-byte length —
and whose session_id is nonempty when the engine-advertised session id is. -/
theorem encrypt_message_envelope_shape (m : EncryptionManager) (s : GroupSession)
    (content room_id : String)
    (hs : m.outbound_sessions room_id = some s)
    (hkey : m.olm_account.identity_keys.curve25519.length = 32)
    (hsid : s.sid ≠ []) :
    ∃ em m', m.encrypt_message content room_id = (Except.ok em, m') ∧
      em.algorithm = "m.megolm.v1.aes-sha2" ∧
      em.ciphertext ≠ "" ∧
      em.sender_key = hexEncode m.olm_account.identity_keys.curve25519 ∧
      em.sender_key.length = 64 ∧
      (∀ ch ∈ em.sender_key.data, ch ∈ hexAlphabet) ∧
      em.session_id ≠ "" := by
  obtain ⟨em, m', hm, -⟩ := encrypt_message_of_some m content room_id s hs
  refine ⟨em, m', hm, ?_⟩
  have hem : em = { algorithm := "m.megolm.v1.aes-sha2"
                    ciphertext := hexEncode (s.encrypt content).1.ciphertext
                    sender_key := hexEncode m.olm_account.identity_keys.curve25519
                    session_id := hexEncode (s.encrypt content).2.session_id } := by
    have h1 : (m.encrypt_message content room_id).1 = Except.ok em := by rw [hm]
    unfold EncryptionManager.encrypt_message at h1
    rw [hs] at h1
    exact (Except.ok.inj h1).symm
  subst hem
  refine ⟨rfl, ?_, rfl, ?_, ?_, ?_⟩
  · exact hexEncode_ne_empty _ (engineCipher_ne_nil _ _ _)
  · rw [length_hexEncode, hkey]
  · exact mem_hexEncode_alphabet _
  · exact hexEncode_ne_empty _ hsid

/-- Witness for C8 at the concrete manager whose table holds a session for
"room1", with 32-byte identity keys and a nonempty session id. -/
theorem encrypt_message_envelope_shape_witness :
    wMgrRoom.outbound_sessions "room1" = some wSession ∧
    wMgrRoom.olm_account.identity_keys.curve25519.length = 32 ∧
    wSession.sid ≠ [] ∧
    (∃ em m', wMgrRoom.encrypt_message "hello" "room1" = (Except.ok em, m') ∧
      em.algorithm = "m.megolm.v1.aes-sha2" ∧
      em.ciphertext ≠ "" ∧
      em.sender_key = hexEncode wMgrRoom.olm_account.identity_keys.curve25519 ∧
      em.sender_key.length = 64 ∧
      (∀ ch ∈ em.sender_key.data, ch ∈ hexAlphabet) ∧
      em.session_id ≠ "") :=
  ⟨by decide, by decide, by decide,
    encrypt_message_envelope_shape wMgrRoom wSession "hello" "room1"
      (by decide) (by decide) (by decide)⟩

/-- C9: when the input string fails to wire-decode, the exported
`decrypt_message` returns the malformed-envelope error wrapping the decoder's
message and leaves the state exactly as it was, for every state including the
absent one — the result does not depend on the state, so no session lookup or
cryptographic operation can have influenced it. -/
theorem decrypt_malformed_envelope
    (parse : String → Except String EncryptedMessage)
    (input room_id e : String) (st : Option EncryptionManager)
    (hp : parse input = Except.error e) :
    decrypt_message parse input room_id st = (Except.error (malformedErr e), st) := by
  unfold decrypt_message
  rw [hp]

/-- Witness for C9 at a concrete failing decoder and absent state. -/
theorem decrypt_malformed_envelope_witness :
    ((fun _ : String => Except.error "expected value") "not-json"
        = (Except.error "expected value" : Except String EncryptedMessage)) ∧
    decrypt_message (fun _ => Except.error "expected value") "not-json" "room1" none
      = (Except.error (malformedErr "expected value"), none) :=
  ⟨rfl, decrypt_malformed_envelope (fun _ => Except.error "expected value")
    "not-json" "room1" "expected value" none rfl⟩

/-- C10: decryption never changes state — the manager-level method returns its
manager unchanged (identity keys and outbound session table included), and the
exported function returns the process-wide state unchanged for every input and
every state, error paths included. -/
theorem decrypt_message_preserves_state
    (parse : String → Except String EncryptedMessage)
    (input room_id : String) (st : Option EncryptionManager)
    (m : EncryptionManager) (em : EncryptedMessage) :
    (m.decrypt_message em room_id).2 = m ∧
    (decrypt_message parse input room_id st).2 = st := by
  refine ⟨rfl, ?_⟩
  unfold decrypt_message
  cases hp : parse input with
  | error e => rfl
  | ok msg =>
      cases st with
      | none => rfl
      | some mgr => rfl

end Feverdream
